import Mathlib

/-!
Shallow embedding of the employee leave-management canister
(src/src/dfinity_js_backend/src/index.ts; the file src/unnamed/part_000 is an
earlier copy that agrees on every function the claims reference, except where
noted in comments).

Modelling conventions:
  - Candid values are modelled at the Candid level: the LeaveName variant is an
    enumeration type, a record of five nat64 balances is a structure with five
    integer fields.  Balances and quotas are modelled as Int because the source
    manipulates them as JavaScript BigInt values and the subtraction in
    accrueLeave is unchecked.  Dates and timestamps are Nat.
  - A StableBTreeMap is modelled as an association list of key-value pairs with
    unique keys; values gives the stored records, as values() does in the
    source.  Claims proved here never depend on enumeration order.
  - uuidv4() and ic.time() are ambient inputs of the create operations, passed
    as explicit arguments (newId, now).
  - Bracket access employee.leave_balances[leaveType.name] and the method calls
    leave_balances.get / leave_balances.set in accrueLeave are both modelled as
    category lookup and update on the balances record; the record is total over
    the five categories, so the "?? 0n" fallback in the source never applies.
-/

inductive LeaveName where
  | Annual
  | Sick
  | Maternity
  | Paternity
  | Unpaid
deriving DecidableEq, Repr

structure LeaveBalances where
  Annual : Int
  Sick : Int
  Maternity : Int
  Paternity : Int
  Unpaid : Int
deriving DecidableEq, Repr

def LeaveBalances.get (b : LeaveBalances) : LeaveName → Int
  | .Annual => b.Annual
  | .Sick => b.Sick
  | .Maternity => b.Maternity
  | .Paternity => b.Paternity
  | .Unpaid => b.Unpaid

def LeaveBalances.set (b : LeaveBalances) : LeaveName → Int → LeaveBalances
  | .Annual, v => { b with Annual := v }
  | .Sick, v => { b with Sick := v }
  | .Maternity, v => { b with Maternity := v }
  | .Paternity, v => { b with Paternity := v }
  | .Unpaid, v => { b with Unpaid := v }

structure Employee where
  id : String
  name : String
  email : String
  phone_number : String
  leave_balances : LeaveBalances
  created_at : Nat
deriving DecidableEq, Repr

structure LeaveRequest where
  id : String
  employee_id : String
  leave_type_id : String
  start_date : Nat
  end_date : Nat
  status : String
  reason : String
  created_at : Nat
deriving DecidableEq, Repr

structure LeaveType where
  id : String
  name : LeaveName
  quota : Int
  carryover_allowed : Bool
  created_at : Nat
deriving DecidableEq, Repr

structure EmployeePayload where
  name : String
  email : String
  phone_number : String
deriving DecidableEq, Repr

structure LeaveRequestPayload where
  employee_id : String
  leave_type_id : String
  start_date : Nat
  end_date : Nat
  reason : String
deriving DecidableEq, Repr

structure LeaveTypePayload where
  name : LeaveName
  quota : Int
  carryover_allowed : Bool
deriving DecidableEq, Repr

inductive Message where
  | Success (msg : String)
  | Error (msg : String)
  | NotFound (msg : String)
  | InvalidPayload (msg : String)
deriving DecidableEq, Repr

/-- Association-list model of a StableBTreeMap keyed by text. -/
abbrev Store (V : Type) : Type := List (String × V)

def Store.get {V : Type} : Store V → String → Option V
  | [], _ => none
  | (k0, v0) :: t, k => if k0 = k then some v0 else Store.get t k

def Store.insert {V : Type} : Store V → String → V → Store V
  | [], k, v => [(k, v)]
  | (k0, v0) :: t, k, v => if k0 = k then (k, v) :: t else (k0, v0) :: Store.insert t k v

def Store.remove {V : Type} : Store V → String → Store V
  | [], _ => []
  | (k0, v0) :: t, k => if k0 = k then Store.remove t k else (k0, v0) :: Store.remove t k

def Store.values {V : Type} (m : Store V) : List V :=
  m.map Prod.snd

structure State where
  employeeStorage : Store Employee
  leaveRequestStorage : Store LeaveRequest
  leaveTypeStorage : Store LeaveType
deriving DecidableEq, Repr

def State.empty : State :=
  { employeeStorage := [], leaveRequestStorage := [], leaveTypeStorage := [] }

/-- JavaScript regex character class backslash-s, restricted to the ASCII
whitespace characters; only used through the two regex testers below. -/
def isJsSpace (c : Char) : Bool :=
  c == ' ' || c == '\t' || c == '\n' || c == '\r' || c == '\x0b' || c == '\x0c'

def emailAtomChar (c : Char) : Bool :=
  !(isJsSpace c) && !(c == '@')

/-- Test of the email regex from createEmployee: one or more non-space
non-at characters, an at sign, then a domain that contains a dot with at
least one non-space non-at character on each side. -/
def emailMatch (email : String) : Bool :=
  let cs := email.toList
  match cs.findIdx? (fun c => c == '@') with
  | none => false
  | some i =>
    let localPart := cs.take i
    let domainPart := cs.drop (i + 1)
    !localPart.isEmpty && localPart.all emailAtomChar &&
      domainPart.all emailAtomChar && ((domainPart.drop 1).dropLast.contains '.')

/-- Test of the phone regex from createEmployee: an optional plus sign, a
digit from 1 to 9, then one to fourteen digits. -/
def phoneMatch (phone : String) : Bool :=
  let cs := phone.toList
  let digits := match cs with
    | '+' :: rest => rest
    | _ => cs
  match digits with
  | [] => false
  | d :: rest =>
    decide ('1' ≤ d) && decide (d ≤ '9') && rest.all Char.isDigit &&
      decide (1 ≤ rest.length) && decide (rest.length ≤ 14)

/-- Helper checkLeaveOverlap from the source: true when some stored request of
the employee, with status other than Rejected, has a window that contains the
start date or the end date (boundaries included). -/
def checkLeaveOverlap (s : State) (employeeId : String) (startDate endDate : Nat) : Bool :=
  decide (0 < (s.leaveRequestStorage.values.filter
    (fun req => decide (req.employee_id = employeeId) && decide (req.status ≠ "Rejected") &&
      ((decide (startDate ≥ req.start_date) && decide (startDate ≤ req.end_date)) ||
       (decide (endDate ≥ req.start_date) && decide (endDate ≤ req.end_date))))).length)

/-- Helper validateLeaveBalance from the source; the error string is wrapped by
each caller. -/
def validateLeaveBalance (s : State) (employee : Employee) (leaveTypeId : String) :
    Except String LeaveType :=
  match s.leaveTypeStorage.get leaveTypeId with
  | none => .error "Leave type not found"
  | some leaveType =>
    if employee.leave_balances.get leaveType.name ≥ leaveType.quota then .ok leaveType
    else .error "Insufficient leave balance for this leave type."

/-- Helper validateEmployee from the source. -/
def validateEmployee (s : State) (employeeId : String) : Except String Employee :=
  match s.employeeStorage.get employeeId with
  | none => .error "Employee not found"
  | some employee => .ok employee

/-- createEmployee: empty-field check, email regex, email uniqueness scan,
phone regex, then insert with all five balances at 20. -/
def createEmployee (s : State) (payload : EmployeePayload) (newId : String) (now : Nat) :
    State × Except Message Employee :=
  if payload.name = "" ∨ payload.email = "" ∨ payload.phone_number = "" then
    (s, .error (.InvalidPayload "Ensure name, email and phone number are provided."))
  else if emailMatch payload.email = false then
    (s, .error (.InvalidPayload "Invalid email format"))
  else
    match s.employeeStorage.values.find? (fun emp => emp.email == payload.email) with
    | some _ => (s, .error (.InvalidPayload "Email already exists."))
    | none =>
      if phoneMatch payload.phone_number = false then
        (s, .error (.InvalidPayload "Invalid phone number format."))
      else
        let employee : Employee :=
          { id := newId, name := payload.name, email := payload.email,
            phone_number := payload.phone_number,
            leave_balances :=
              { Annual := 20, Sick := 20, Maternity := 20, Paternity := 20, Unpaid := 20 },
            created_at := now }
        ({ s with employeeStorage := s.employeeStorage.insert newId employee }, .ok employee)

/-- getEmployees query. -/
def getEmployees (s : State) : Except Message (List Employee) :=
  if s.employeeStorage.values.length = 0 then .error (.NotFound "No employees found")
  else .ok s.employeeStorage.values

/-- createLeaveRequest: employee lookup, leave-type and balance validation,
overlap check, date-order check, then insert with status Pending.  Note that
the error string of validateLeaveBalance, including the missing-leave-type
case, is wrapped in the Error variant here, and that the date-order check runs
after the overlap check. -/
def createLeaveRequest (s : State) (payload : LeaveRequestPayload) (newId : String) (now : Nat) :
    State × Except Message LeaveRequest :=
  match validateEmployee s payload.employee_id with
  | .error e => (s, .error (.NotFound e))
  | .ok employee =>
    match validateLeaveBalance s employee payload.leave_type_id with
    | .error e => (s, .error (.Error e))
    | .ok _leaveType =>
      if checkLeaveOverlap s payload.employee_id payload.start_date payload.end_date then
        (s, .error (.Error "Leave dates overlap with an existing request."))
      else if payload.start_date > payload.end_date then
        (s, .error (.InvalidPayload "Start date cannot be later than end date."))
      else
        let leaveRequest : LeaveRequest :=
          { id := newId, employee_id := payload.employee_id,
            leave_type_id := payload.leave_type_id, start_date := payload.start_date,
            end_date := payload.end_date, status := "Pending", reason := payload.reason,
            created_at := now }
        ({ s with leaveRequestStorage := s.leaveRequestStorage.insert newId leaveRequest },
          .ok leaveRequest)

/-- deleteEmployee: refuses when a Pending request references the employee;
otherwise removes the employee and then removes, by id, every stored request
whose employee_id matches. -/
def deleteEmployee (s : State) (employeeId : String) : State × Except Message Message :=
  match s.employeeStorage.get employeeId with
  | none => (s, .error (.NotFound "Employee not found"))
  | some _employee =>
    if s.leaveRequestStorage.values.any
        (fun req => decide (req.employee_id = employeeId) && decide (req.status = "Pending")) then
      (s, .error (.Error "Cannot delete employee with pending leave requests."))
    else
      ({ s with
          employeeStorage := s.employeeStorage.remove employeeId,
          leaveRequestStorage := s.leaveRequestStorage.values.foldl
            (fun acc req => if req.employee_id = employeeId then acc.remove req.id else acc)
            s.leaveRequestStorage },
        .ok (.Success "Employee and associated leave requests deleted."))

/-- getEmployeeLeaveRequests query. -/
def getEmployeeLeaveRequests (s : State) (employeeId : String) :
    Except Message (List LeaveRequest) :=
  let leaveRequests := s.leaveRequestStorage.values.filter
    (fun req => decide (req.employee_id = employeeId))
  if leaveRequests.length = 0 then
    .error (.NotFound ("No leave requests found for employee with id " ++ employeeId))
  else .ok leaveRequests

/-- getLeaveRequests query. -/
def getLeaveRequests (s : State) : Except Message (List LeaveRequest) :=
  if s.leaveRequestStorage.values.length = 0 then .error (.NotFound "No leave requests found")
  else .ok s.leaveRequestStorage.values

/-- approveLeaveRequest: request lookup, already-approved check, employee
lookup, leave-type and balance validation, then quota deduction and status
update, writing both records back. -/
def approveLeaveRequest (s : State) (requestId : String) : State × Except Message Message :=
  match s.leaveRequestStorage.get requestId with
  | none => (s, .error (.NotFound "Leave request not found"))
  | some leaveRequest =>
    if leaveRequest.status = "Approved" then
      (s, .error (.Error "Leave request is already approved."))
    else
      match validateEmployee s leaveRequest.employee_id with
      | .error e => (s, .error (.NotFound e))
      | .ok employee =>
        match validateLeaveBalance s employee leaveRequest.leave_type_id with
        | .error e => (s, .error (.Error e))
        | .ok leaveType =>
          let newBalances := employee.leave_balances.set leaveType.name
            (employee.leave_balances.get leaveType.name - leaveType.quota)
          let employee1 : Employee := { employee with leave_balances := newBalances }
          let leaveRequest1 : LeaveRequest := { leaveRequest with status := "Approved" }
          ({ s with
              leaveRequestStorage := s.leaveRequestStorage.insert requestId leaveRequest1,
              employeeStorage := s.employeeStorage.insert employee1.id employee1 },
            .ok (.Success "Leave request approved and leave balance updated."))

/-- createLeaveType: the name is a variant value and is always truthy in the
source, so only the quota is tested against zero. -/
def createLeaveType (s : State) (payload : LeaveTypePayload) (newId : String) (now : Nat) :
    State × Except Message LeaveType :=
  if payload.quota = 0 then
    (s, .error (.InvalidPayload "Ensure name and quota are provided."))
  else
    let leaveType : LeaveType :=
      { id := newId, name := payload.name, quota := payload.quota,
        carryover_allowed := payload.carryover_allowed, created_at := now }
    ({ s with leaveTypeStorage := s.leaveTypeStorage.insert newId leaveType }, .ok leaveType)

/-- getLeaveTypes query. -/
def getLeaveTypes (s : State) : Except Message (List LeaveType) :=
  if s.leaveTypeStorage.values.length = 0 then .error (.NotFound "No leave types found")
  else .ok s.leaveTypeStorage.values

/-- accrueLeave: request lookup, already-accrued and not-approved checks,
employee and leave-type lookups, then an unchecked quota deduction and status
update to Accrued, writing both records back. -/
def accrueLeave (s : State) (leaveRequestId : String) : State × Except Message Message :=
  match s.leaveRequestStorage.get leaveRequestId with
  | none => (s, .error (.NotFound "Leave request not found"))
  | some leaveRequest =>
    if leaveRequest.status = "Accrued" then
      (s, .error (.Error "Leave request already accrued."))
    else if leaveRequest.status ≠ "Approved" then
      (s, .error (.Error "Leave request is not approved."))
    else
      match s.employeeStorage.get leaveRequest.employee_id with
      | none => (s, .error (.NotFound "Employee not found"))
      | some employee =>
        match s.leaveTypeStorage.get leaveRequest.leave_type_id with
        | none => (s, .error (.NotFound "Leave type not found"))
        | some leaveType =>
          let balance := employee.leave_balances.get leaveType.name - leaveType.quota
          let employee1 : Employee :=
            { employee with leave_balances := employee.leave_balances.set leaveType.name balance }
          let leaveRequest1 : LeaveRequest := { leaveRequest with status := "Accrued" }
          ({ s with
              leaveRequestStorage := s.leaveRequestStorage.insert leaveRequestId leaveRequest1,
              employeeStorage := s.employeeStorage.insert employee1.id employee1 },
            .ok (.Success "Leave request accrued successfully and balance updated."))

def leaveNameText : LeaveName → String
  | .Annual => "Annual"
  | .Sick => "Sick"
  | .Maternity => "Maternity"
  | .Paternity => "Paternity"
  | .Unpaid => "Unpaid"

def leaveReportBlock (employee : Employee) (req : LeaveRequest) (lt : LeaveType) : String :=
  "Leave Request ID: " ++ req.id ++ "\nLeave Type: " ++ leaveNameText lt.name ++
    "\nQuota: " ++ toString lt.quota ++ "\nRemaining Leaves: " ++
    toString (employee.leave_balances.get lt.name) ++ "\nStart Date: " ++
    toString req.start_date ++ "\nEnd Date: " ++ toString req.end_date ++ "\nStatus: " ++
    req.status ++ "\nReason: " ++ req.reason ++ "\n\n"

def appendReportBlocks (s : State) (employee : Employee) :
    List LeaveRequest → Except Message String
  | [] => .ok ""
  | req :: rest =>
    match s.leaveTypeStorage.get req.leave_type_id with
    | none => .error (.NotFound ("Leave type not found for request ID: " ++ req.id))
    | some lt =>
      match appendReportBlocks s employee rest with
      | .error e => .error e
      | .ok tail => .ok (leaveReportBlock employee req lt ++ tail)

/-- generateLeaveReport query. -/
def generateLeaveReport (s : State) (employeeId : String) : Except Message String :=
  let leaveRequests := s.leaveRequestStorage.values.filter
    (fun req => decide (req.employee_id = employeeId))
  if leaveRequests.length = 0 then .error (.NotFound "No leave requests found for the employee.")
  else
    match s.employeeStorage.get employeeId with
    | none => .error (.NotFound "Employee not found.")
    | some employee =>
      match appendReportBlocks s employee leaveRequests with
      | .error e => .error e
      | .ok body =>
        .ok ("Leave report for " ++ employee.name ++ " (Employee ID: " ++ employee.id ++
          ")\n\n" ++ body)

def exceptUnit {α : Type} : Except Message α → Except Message Unit
  | .error m => .error m
  | .ok _ => .ok ()

/-- The exposed operations of the canister. -/
inductive Op where
  | createEmployee (payload : EmployeePayload) (newId : String) (now : Nat)
  | getEmployees
  | createLeaveRequest (payload : LeaveRequestPayload) (newId : String) (now : Nat)
  | deleteEmployee (employeeId : String)
  | getEmployeeLeaveRequests (employeeId : String)
  | getLeaveRequests
  | approveLeaveRequest (requestId : String)
  | createLeaveType (payload : LeaveTypePayload) (newId : String) (now : Nat)
  | getLeaveTypes
  | accrueLeave (requestId : String)
  | generateLeaveReport (employeeId : String)
  | cancelLeaveRequest (requestId : String)

/-- cancelLeaveRequest: request lookup, approved check, then a hard delete of
the record. -/
def cancelLeaveRequest (s : State) (requestId : String) : State × Except Message Message :=
  match s.leaveRequestStorage.get requestId with
  | none => (s, .error (.NotFound "Leave request not found"))
  | some leaveRequest =>
    if leaveRequest.status = "Approved" then
      (s, .error (.Error "Cannot cancel an approved leave request."))
    else
      ({ s with leaveRequestStorage := s.leaveRequestStorage.remove requestId },
        .ok (.Success "Leave request canceled successfully."))

/-- One step of the canister: run an exposed operation, keeping the new state
and the success-or-failure outcome. -/
def applyOp (s : State) : Op → State × Except Message Unit
  | .createEmployee p newId now =>
    ((createEmployee s p newId now).1, exceptUnit (createEmployee s p newId now).2)
  | .getEmployees => (s, exceptUnit (getEmployees s))
  | .createLeaveRequest p newId now =>
    ((createLeaveRequest s p newId now).1, exceptUnit (createLeaveRequest s p newId now).2)
  | .deleteEmployee employeeId =>
    ((deleteEmployee s employeeId).1, exceptUnit (deleteEmployee s employeeId).2)
  | .getEmployeeLeaveRequests employeeId => (s, exceptUnit (getEmployeeLeaveRequests s employeeId))
  | .getLeaveRequests => (s, exceptUnit (getLeaveRequests s))
  | .approveLeaveRequest requestId =>
    ((approveLeaveRequest s requestId).1, exceptUnit (approveLeaveRequest s requestId).2)
  | .createLeaveType p newId now =>
    ((createLeaveType s p newId now).1, exceptUnit (createLeaveType s p newId now).2)
  | .getLeaveTypes => (s, exceptUnit (getLeaveTypes s))
  | .accrueLeave requestId =>
    ((accrueLeave s requestId).1, exceptUnit (accrueLeave s requestId).2)
  | .generateLeaveReport employeeId => (s, exceptUnit (generateLeaveReport s employeeId))
  | .cancelLeaveRequest requestId =>
    ((cancelLeaveRequest s requestId).1, exceptUnit (cancelLeaveRequest s requestId).2)

/-- States reachable from the empty stores by the exposed operations. -/
inductive Reachable : State → Prop where
  | base : Reachable State.empty
  | step {s : State} (h : Reachable s) (op : Op) : Reachable (applyOp s op).1

/-- Key discipline of the request store: the key of every entry equals the id
field of the stored record.  All reachable states satisfy it because inserts
always use the id of the inserted record as the key. -/
def WellKeyedRequests (s : State) : Prop :=
  ∀ p ∈ s.leaveRequestStorage, p.2.id = p.1

/-! ### Lemmas about the store model -/

theorem Store.get_insert_self {V : Type} (m : Store V) (k : String) (v : V) :
    (m.insert k v).get k = some v := by
  induction m with
  | nil => simp [Store.insert, Store.get]
  | cons p t ih =>
    obtain ⟨k0, v0⟩ := p
    by_cases h : k0 = k <;> simp [Store.insert, Store.get, h, ih]

theorem Store.get_remove_self {V : Type} (m : Store V) (k : String) :
    (m.remove k).get k = none := by
  induction m with
  | nil => simp [Store.remove, Store.get]
  | cons p t ih =>
    obtain ⟨k0, v0⟩ := p
    by_cases h : k0 = k <;> simp [Store.remove, Store.get, h, ih]

theorem Store.get_remove_ne {V : Type} (m : Store V) (k k1 : String) (h : k1 ≠ k) :
    (m.remove k).get k1 = m.get k1 := by
  induction m with
  | nil => rfl
  | cons p t ih =>
    obtain ⟨k0, v0⟩ := p
    by_cases h0 : k0 = k
    · subst h0
      have h1 : k0 ≠ k1 := fun hh => h hh.symm
      simp [Store.remove, Store.get, h1, ih]
    · by_cases h1 : k0 = k1
      · subst h1
        simp [Store.remove, Store.get, h0, ih]
      · simp [Store.remove, Store.get, h0, h1, ih]

theorem Store.mem_remove {V : Type} {m : Store V} {k0 k : String} {v : V}
    (h : (k, v) ∈ m.remove k0) : (k, v) ∈ m ∧ k ≠ k0 := by
  induction m with
  | nil => simp [Store.remove] at h
  | cons p t ih =>
    obtain ⟨k1, v1⟩ := p
    by_cases h1 : k1 = k0
    · rw [Store.remove, if_pos h1] at h
      obtain ⟨hm, hne⟩ := ih h
      exact ⟨List.mem_cons_of_mem _ hm, hne⟩
    · rw [Store.remove, if_neg h1] at h
      rcases List.mem_cons.mp h with heq | hm
      · injection heq with hk hv
        subst hk
        subst hv
        exact ⟨List.mem_cons_self _ _, h1⟩
      · obtain ⟨hm2, hne⟩ := ih hm
        exact ⟨List.mem_cons_of_mem _ hm2, hne⟩

theorem Store.mem_values_iff {V : Type} (m : Store V) (v : V) :
    v ∈ m.values ↔ ∃ k, (k, v) ∈ m := by
  unfold Store.values
  rw [List.mem_map]
  constructor
  · rintro ⟨⟨k, v0⟩, hmem, rfl⟩
    exact ⟨k, hmem⟩
  · rintro ⟨k, hmem⟩
    exact ⟨(k, v), hmem, rfl⟩

theorem Store.values_remove_subset {V : Type} {m : Store V} {k0 : String} {v : V}
    (h : v ∈ (m.remove k0).values) : v ∈ m.values := by
  obtain ⟨k, hk⟩ := (Store.mem_values_iff _ _).mp h
  exact (Store.mem_values_iff _ _).mpr ⟨k, (Store.mem_remove hk).1⟩

theorem Store.mem_values_insert {V : Type} {m : Store V} {k : String} {v w : V}
    (h : w ∈ (m.insert k v).values) : w = v ∨ w ∈ m.values := by
  induction m with
  | nil => simp [Store.insert, Store.values] at h; simp [h]
  | cons p t ih =>
    obtain ⟨k0, v0⟩ := p
    by_cases h0 : k0 = k
    · rw [Store.insert, if_pos h0] at h
      rcases (Store.mem_values_iff _ _).mp h with ⟨k2, hk2⟩
      rcases List.mem_cons.mp hk2 with heq | hm
      · injection heq with hk hv
        exact Or.inl hv
      · exact Or.inr ((Store.mem_values_iff _ _).mpr ⟨k2, List.mem_cons_of_mem _ hm⟩)
    · rw [Store.insert, if_neg h0] at h
      rcases (Store.mem_values_iff _ _).mp h with ⟨k2, hk2⟩
      rcases List.mem_cons.mp hk2 with heq | hm
      · injection heq with hk hv
        subst hk
        subst hv
        exact Or.inr ((Store.mem_values_iff _ _).mpr ⟨k2, List.mem_cons_self _ _⟩)
      · rcases ih ((Store.mem_values_iff _ _).mpr ⟨k2, hm⟩) with hv | hv
        · exact Or.inl hv
        · rcases (Store.mem_values_iff _ _).mp hv with ⟨k3, hk3⟩
          exact Or.inr ((Store.mem_values_iff _ _).mpr ⟨k3, List.mem_cons_of_mem _ hk3⟩)

theorem Store.get_mem {V : Type} {m : Store V} {k : String} {v : V}
    (h : m.get k = some v) : (k, v) ∈ m := by
  induction m with
  | nil => simp [Store.get] at h
  | cons p t ih =>
    obtain ⟨k0, v0⟩ := p
    by_cases h0 : k0 = k
    · rw [Store.get, if_pos h0] at h
      injection h with h
      subst h0
      subst h
      exact List.mem_cons_self _ _
    · rw [Store.get, if_neg h0] at h
      exact List.mem_cons_of_mem _ (ih h)

theorem Store.get_mem_values {V : Type} {m : Store V} {k : String} {v : V}
    (h : m.get k = some v) : v ∈ m.values :=
  (Store.mem_values_iff _ _).mpr ⟨k, Store.get_mem h⟩

/-- Entries that survive the request-removal fold of deleteEmployee were in the
initial store and their key is the id of no removed matching request. -/
theorem mem_foldl_removeIf {eid : String} (L : List LeaveRequest) (acc : Store LeaveRequest)
    {k : String} {v : LeaveRequest}
    (h : (k, v) ∈ L.foldl
      (fun a req => if req.employee_id = eid then a.remove req.id else a) acc) :
    (k, v) ∈ acc ∧ ∀ r ∈ L, r.employee_id = eid → r.id ≠ k := by
  induction L generalizing acc with
  | nil => exact ⟨h, by simp⟩
  | cons r t ih =>
    rw [List.foldl_cons] at h
    by_cases hr : r.employee_id = eid
    · rw [if_pos hr] at h
      obtain ⟨hmem, hrest⟩ := ih _ h
      obtain ⟨hacc, hne⟩ := Store.mem_remove hmem
      refine ⟨hacc, ?_⟩
      intro r2 hr2 he
      rcases List.mem_cons.mp hr2 with heq | hm
      · subst heq
        exact fun hh => hne hh.symm
      · exact hrest r2 hm he
    · rw [if_neg hr] at h
      obtain ⟨hmem, hrest⟩ := ih _ h
      refine ⟨hmem, ?_⟩
      intro r2 hr2 he
      rcases List.mem_cons.mp hr2 with heq | hm
      · subst heq
        exact absurd he hr
      · exact hrest r2 hm he

/-! ### Lemmas about the balances record -/

theorem LeaveBalances.get_set_self (b : LeaveBalances) (n : LeaveName) (v : Int) :
    (b.set n v).get n = v := by
  cases n <;> rfl

theorem LeaveBalances.get_set_ne (b : LeaveBalances) (n c : LeaveName) (v : Int)
    (h : c ≠ n) : (b.set n v).get c = b.get c := by
  cases n <;> cases c <;> first | rfl | exact absurd rfl h

/-! ### Failure leaves the state unchanged: one frame lemma per update -/

theorem exceptUnit_error {α : Type} {r : Except Message α} {m : Message}
    (h : exceptUnit r = .error m) : r = .error m := by
  cases r with
  | error e => simpa [exceptUnit] using h
  | ok x => simp [exceptUnit] at h

theorem frame_of_error {α : Type} {s : State} {r : State × Except Message α} {m : Message}
    (hf : r.1 = s ∨ ∃ x, r.2 = .ok x) (h : r.2 = .error m) : r.1 = s := by
  rcases hf with h1 | ⟨x, hx⟩
  · exact h1
  · rw [hx] at h
    exact absurd h (by simp)

theorem createEmployee_frame (s : State) (p : EmployeePayload) (newId : String) (now : Nat) :
    (createEmployee s p newId now).1 = s ∨ ∃ x, (createEmployee s p newId now).2 = .ok x := by
  unfold createEmployee
  split
  · exact Or.inl rfl
  · split
    · exact Or.inl rfl
    · split
      · exact Or.inl rfl
      · split
        · exact Or.inl rfl
        · exact Or.inr ⟨_, rfl⟩

theorem createLeaveRequest_frame (s : State) (p : LeaveRequestPayload) (newId : String)
    (now : Nat) :
    (createLeaveRequest s p newId now).1 = s ∨
      ∃ x, (createLeaveRequest s p newId now).2 = .ok x := by
  unfold createLeaveRequest
  split
  · exact Or.inl rfl
  · split
    · exact Or.inl rfl
    · split
      · exact Or.inl rfl
      · split
        · exact Or.inl rfl
        · exact Or.inr ⟨_, rfl⟩

theorem deleteEmployee_frame (s : State) (employeeId : String) :
    (deleteEmployee s employeeId).1 = s ∨ ∃ x, (deleteEmployee s employeeId).2 = .ok x := by
  unfold deleteEmployee
  split
  · exact Or.inl rfl
  · split
    · exact Or.inl rfl
    · exact Or.inr ⟨_, rfl⟩

theorem approveLeaveRequest_frame (s : State) (requestId : String) :
    (approveLeaveRequest s requestId).1 = s ∨
      ∃ x, (approveLeaveRequest s requestId).2 = .ok x := by
  unfold approveLeaveRequest
  split
  · exact Or.inl rfl
  · split
    · exact Or.inl rfl
    · split
      · exact Or.inl rfl
      · split
        · exact Or.inl rfl
        · exact Or.inr ⟨_, rfl⟩

theorem createLeaveType_frame (s : State) (p : LeaveTypePayload) (newId : String) (now : Nat) :
    (createLeaveType s p newId now).1 = s ∨ ∃ x, (createLeaveType s p newId now).2 = .ok x := by
  unfold createLeaveType
  split
  · exact Or.inl rfl
  · exact Or.inr ⟨_, rfl⟩

theorem accrueLeave_frame (s : State) (requestId : String) :
    (accrueLeave s requestId).1 = s ∨ ∃ x, (accrueLeave s requestId).2 = .ok x := by
  unfold accrueLeave
  split
  · exact Or.inl rfl
  · split
    · exact Or.inl rfl
    · split
      · exact Or.inl rfl
      · split
        · exact Or.inl rfl
        · split
          · exact Or.inl rfl
          · exact Or.inr ⟨_, rfl⟩

theorem cancelLeaveRequest_frame (s : State) (requestId : String) :
    (cancelLeaveRequest s requestId).1 = s ∨
      ∃ x, (cancelLeaveRequest s requestId).2 = .ok x := by
  unfold cancelLeaveRequest
  split
  · exact Or.inl rfl
  · split
    · exact Or.inl rfl
    · exact Or.inr ⟨_, rfl⟩

/-! ### Effect of each operation on the stored leave requests -/

theorem createEmployee_requests (s : State) (p : EmployeePayload) (newId : String) (now : Nat) :
    (createEmployee s p newId now).1.leaveRequestStorage = s.leaveRequestStorage := by
  unfold createEmployee
  split
  · rfl
  · split
    · rfl
    · split
      · rfl
      · split
        · rfl
        · rfl

theorem createLeaveType_requests (s : State) (p : LeaveTypePayload) (newId : String) (now : Nat) :
    (createLeaveType s p newId now).1.leaveRequestStorage = s.leaveRequestStorage := by
  unfold createLeaveType
  split
  · rfl
  · rfl

theorem createLeaveRequest_requests (s : State) (p : LeaveRequestPayload) (newId : String)
    (now : Nat) (r : LeaveRequest)
    (h : r ∈ (createLeaveRequest s p newId now).1.leaveRequestStorage.values) :
    r ∈ s.leaveRequestStorage.values ∨ r.status = "Pending" := by
  unfold createLeaveRequest at h
  split at h
  · exact Or.inl h
  · split at h
    · exact Or.inl h
    · split at h
      · exact Or.inl h
      · split at h
        · exact Or.inl h
        · rcases Store.mem_values_insert h with heq | hm
          · subst heq
            exact Or.inr rfl
          · exact Or.inl hm

theorem approveLeaveRequest_requests (s : State) (requestId : String) (r : LeaveRequest)
    (h : r ∈ (approveLeaveRequest s requestId).1.leaveRequestStorage.values) :
    r ∈ s.leaveRequestStorage.values ∨ r.status = "Approved" := by
  unfold approveLeaveRequest at h
  split at h
  · exact Or.inl h
  · split at h
    · exact Or.inl h
    · split at h
      · exact Or.inl h
      · split at h
        · exact Or.inl h
        · rcases Store.mem_values_insert h with heq | hm
          · subst heq
            exact Or.inr rfl
          · exact Or.inl hm

theorem accrueLeave_requests (s : State) (requestId : String) (r : LeaveRequest)
    (h : r ∈ (accrueLeave s requestId).1.leaveRequestStorage.values) :
    r ∈ s.leaveRequestStorage.values ∨ r.status = "Accrued" := by
  unfold accrueLeave at h
  split at h
  · exact Or.inl h
  · split at h
    · exact Or.inl h
    · split at h
      · exact Or.inl h
      · split at h
        · exact Or.inl h
        · split at h
          · exact Or.inl h
          · rcases Store.mem_values_insert h with heq | hm
            · subst heq
              exact Or.inr rfl
            · exact Or.inl hm

theorem deleteEmployee_requests (s : State) (employeeId : String) (r : LeaveRequest)
    (h : r ∈ (deleteEmployee s employeeId).1.leaveRequestStorage.values) :
    r ∈ s.leaveRequestStorage.values := by
  unfold deleteEmployee at h
  split at h
  · exact h
  · split at h
    · exact h
    · obtain ⟨k, hk⟩ := (Store.mem_values_iff _ _).mp h
      exact (Store.mem_values_iff _ _).mpr ⟨k, (mem_foldl_removeIf _ _ hk).1⟩

theorem cancelLeaveRequest_requests (s : State) (requestId : String) (r : LeaveRequest)
    (h : r ∈ (cancelLeaveRequest s requestId).1.leaveRequestStorage.values) :
    r ∈ s.leaveRequestStorage.values := by
  unfold cancelLeaveRequest at h
  split at h
  · exact h
  · split at h
    · exact h
    · exact Store.values_remove_subset h

/-! ### The status invariant -/

/-- Every stored leave request carries one of the three statuses the
operations actually write. -/
def StatusInv (s : State) : Prop :=
  ∀ r ∈ s.leaveRequestStorage.values,
    r.status = "Pending" ∨ r.status = "Approved" ∨ r.status = "Accrued"

theorem statusInv_step (s : State) (op : Op) (h : StatusInv s) : StatusInv (applyOp s op).1 := by
  cases op with
  | createEmployee p newId now =>
    intro r hr
    rw [applyOp] at hr
    rw [createEmployee_requests] at hr
    exact h r hr
  | getEmployees => exact h
  | createLeaveRequest p newId now =>
    intro r hr
    rw [applyOp] at hr
    rcases createLeaveRequest_requests s p newId now r hr with hm | hs
    · exact h r hm
    · exact Or.inl hs
  | deleteEmployee employeeId =>
    intro r hr
    rw [applyOp] at hr
    exact h r (deleteEmployee_requests s employeeId r hr)
  | getEmployeeLeaveRequests employeeId => exact h
  | getLeaveRequests => exact h
  | approveLeaveRequest requestId =>
    intro r hr
    rw [applyOp] at hr
    rcases approveLeaveRequest_requests s requestId r hr with hm | hs
    · exact h r hm
    · exact Or.inr (Or.inl hs)
  | createLeaveType p newId now =>
    intro r hr
    rw [applyOp] at hr
    rw [createLeaveType_requests] at hr
    exact h r hr
  | getLeaveTypes => exact h
  | accrueLeave requestId =>
    intro r hr
    rw [applyOp] at hr
    rcases accrueLeave_requests s requestId r hr with hm | hs
    · exact h r hm
    · exact Or.inr (Or.inr hs)
  | generateLeaveReport employeeId => exact h
  | cancelLeaveRequest requestId =>
    intro r hr
    rw [applyOp] at hr
    exact h r (cancelLeaveRequest_requests s requestId r hr)

theorem reachable_statusInv (s : State) (h : Reachable s) : StatusInv s := by
  induction h with
  | base =>
    intro r hr
    simp [State.empty, Store.values] at hr
  | step h0 op ih => exact statusInv_step _ op ih

/-! ### Claims -/

/-- C1: for every stored leave request with status Approved whose employee and
leave type exist, accrueLeave succeeds, deducts the quota of the leave type
from the balance of the employee in the category of the leave type one more
time, and sets the request status to Accrued. -/
theorem claimC1_accrue_second_deduction (s : State) (requestId : String)
    (lr : LeaveRequest) (emp : Employee) (lt : LeaveType)
    (hreq : s.leaveRequestStorage.get requestId = some lr)
    (hst : lr.status = "Approved")
    (hemp : s.employeeStorage.get lr.employee_id = some emp)
    (hlt : s.leaveTypeStorage.get lr.leave_type_id = some lt) :
    (accrueLeave s requestId).2 =
      .ok (.Success "Leave request accrued successfully and balance updated.") ∧
    (accrueLeave s requestId).1.employeeStorage.get emp.id =
      some { emp with leave_balances :=
        emp.leave_balances.set lt.name (emp.leave_balances.get lt.name - lt.quota) } ∧
    (accrueLeave s requestId).1.leaveRequestStorage.get requestId =
      some { lr with status := "Accrued" } := by
  refine ⟨?_, ?_, ?_⟩ <;>
    simp [accrueLeave, hreq, hst, hemp, hlt, Store.get_insert_self]

def specExampleEmployee : Employee :=
  { id := "E1", name := "Alice", email := "a@b.c", phone_number := "+254712",
    leave_balances := { Annual := 15, Sick := 20, Maternity := 20, Paternity := 20, Unpaid := 20 },
    created_at := 0 }

def specExampleType : LeaveType :=
  { id := "T1", name := .Annual, quota := 5, carryover_allowed := true, created_at := 0 }

def specExampleApprovedRequest : LeaveRequest :=
  { id := "R1", employee_id := "E1", leave_type_id := "T1", start_date := 1, end_date := 3,
    status := "Approved", reason := "rest", created_at := 0 }

/-- Spec example after approval: Annual balance 15, quota 5, request Approved. -/
def specExampleState : State :=
  { employeeStorage := [("E1", specExampleEmployee)],
    leaveRequestStorage := [("R1", specExampleApprovedRequest)],
    leaveTypeStorage := [("T1", specExampleType)] }

/-- C1 witness: the spec example; the Annual balance goes from 15 to 10 and the
request becomes Accrued. -/
theorem claimC1_witness :
    (accrueLeave specExampleState "R1").1.employeeStorage.get specExampleEmployee.id =
      some { specExampleEmployee with leave_balances :=
        { Annual := 10, Sick := 20, Maternity := 20, Paternity := 20, Unpaid := 20 } } ∧
    (accrueLeave specExampleState "R1").1.leaveRequestStorage.get "R1" =
      some { specExampleApprovedRequest with status := "Accrued" } := by
  have h := claimC1_accrue_second_deduction specExampleState "R1" specExampleApprovedRequest
    specExampleEmployee specExampleType (by decide) rfl (by decide) (by decide)
  refine ⟨?_, h.2.2⟩
  rw [h.2.1]
  rfl

/-- C2: for every stored leave request whose status is not Approved, with
existing employee and leave type and a balance in the category of the leave
type at least the quota, approveLeaveRequest succeeds, reduces exactly that
category by exactly the quota, leaves the other categories unchanged, and sets
the status to Approved; a second approveLeaveRequest call on the same request
then fails with Error and changes nothing. -/
theorem claimC2_approve_deducts_once (s : State) (requestId : String)
    (lr : LeaveRequest) (emp : Employee) (lt : LeaveType)
    (hreq : s.leaveRequestStorage.get requestId = some lr)
    (hst : lr.status ≠ "Approved")
    (hemp : s.employeeStorage.get lr.employee_id = some emp)
    (hlt : s.leaveTypeStorage.get lr.leave_type_id = some lt)
    (hbal : emp.leave_balances.get lt.name ≥ lt.quota) :
    (approveLeaveRequest s requestId).2 =
      .ok (.Success "Leave request approved and leave balance updated.") ∧
    (approveLeaveRequest s requestId).1.employeeStorage.get emp.id =
      some { emp with leave_balances :=
        emp.leave_balances.set lt.name (emp.leave_balances.get lt.name - lt.quota) } ∧
    (emp.leave_balances.set lt.name (emp.leave_balances.get lt.name - lt.quota)).get lt.name =
      emp.leave_balances.get lt.name - lt.quota ∧
    (∀ c : LeaveName, c ≠ lt.name →
      (emp.leave_balances.set lt.name (emp.leave_balances.get lt.name - lt.quota)).get c =
        emp.leave_balances.get c) ∧
    (approveLeaveRequest s requestId).1.leaveRequestStorage.get requestId =
      some { lr with status := "Approved" } ∧
    (approveLeaveRequest (approveLeaveRequest s requestId).1 requestId).1 =
      (approveLeaveRequest s requestId).1 ∧
    (approveLeaveRequest (approveLeaveRequest s requestId).1 requestId).2 =
      .error (.Error "Leave request is already approved.") := by
  have hok : (approveLeaveRequest s requestId).2 =
      .ok (.Success "Leave request approved and leave balance updated.") := by
    simp [approveLeaveRequest, hreq, hst, validateEmployee, hemp, validateLeaveBalance, hlt, hbal]
  have hget : (approveLeaveRequest s requestId).1.leaveRequestStorage.get requestId =
      some { lr with status := "Approved" } := by
    simp [approveLeaveRequest, hreq, hst, validateEmployee, hemp, validateLeaveBalance, hlt, hbal,
      Store.get_insert_self]
  refine ⟨hok, ?_, LeaveBalances.get_set_self .., fun c hc => LeaveBalances.get_set_ne _ _ _ _ hc,
    hget, ?_, ?_⟩
  · simp [approveLeaveRequest, hreq, hst, validateEmployee, hemp, validateLeaveBalance, hlt, hbal,
      Store.get_insert_self]
  · set s1 := (approveLeaveRequest s requestId).1 with hs1
    simp [approveLeaveRequest, hget]
  · set s1 := (approveLeaveRequest s requestId).1 with hs1
    simp [approveLeaveRequest, hget]

def baseEmployee : Employee :=
  { id := "E1", name := "Alice", email := "a@b.c", phone_number := "+254712",
    leave_balances := { Annual := 20, Sick := 20, Maternity := 20, Paternity := 20, Unpaid := 20 },
    created_at := 0 }

def basePendingRequest : LeaveRequest :=
  { id := "R1", employee_id := "E1", leave_type_id := "T1", start_date := 1, end_date := 3,
    status := "Pending", reason := "rest", created_at := 0 }

/-- Fresh employee with a Pending Annual request and an Annual leave type of
quota 5. -/
def baseState : State :=
  { employeeStorage := [("E1", baseEmployee)],
    leaveRequestStorage := [("R1", basePendingRequest)],
    leaveTypeStorage := [("T1", specExampleType)] }

/-- C2 witness: approving the Pending request of the base state succeeds and a
second approval fails with Error. -/
theorem claimC2_witness :
    (approveLeaveRequest baseState "R1").2 =
      .ok (.Success "Leave request approved and leave balance updated.") ∧
    (approveLeaveRequest (approveLeaveRequest baseState "R1").1 "R1").2 =
      .error (.Error "Leave request is already approved.") := by
  have h := claimC2_approve_deducts_once baseState "R1" basePendingRequest baseEmployee
    specExampleType (by decide) (by decide) (by decide) (by decide) (by decide)
  exact ⟨h.1, h.2.2.2.2.2.2⟩

theorem getEmployeeLeaveRequests_sub (s : State) (eid : String) (l : List LeaveRequest)
    (h : getEmployeeLeaveRequests s eid = .ok l) (r : LeaveRequest) (hr : r ∈ l) :
    r ∈ s.leaveRequestStorage.values := by
  simp only [getEmployeeLeaveRequests] at h
  split at h
  · cases h
  · injection h with h
    subst h
    exact List.mem_of_mem_filter hr

/-- C7: for every stored leave request, cancelLeaveRequest with a status other
than Approved removes the record entirely, so it no longer appears in
getEmployeeLeaveRequests; with status Approved it fails with Error and the
request stays stored unchanged. -/
theorem claimC7_cancel_hard_delete (s : State) (requestId : String) (lr : LeaveRequest)
    (hkeys : WellKeyedRequests s)
    (hreq : s.leaveRequestStorage.get requestId = some lr) :
    (lr.status ≠ "Approved" →
      (cancelLeaveRequest s requestId).2 =
        .ok (.Success "Leave request canceled successfully.") ∧
      (cancelLeaveRequest s requestId).1.leaveRequestStorage.get requestId = none ∧
      lr ∉ (cancelLeaveRequest s requestId).1.leaveRequestStorage.values ∧
      (∀ l, getEmployeeLeaveRequests (cancelLeaveRequest s requestId).1 lr.employee_id = .ok l →
        lr ∉ l)) ∧
    (lr.status = "Approved" →
      cancelLeaveRequest s requestId =
        (s, .error (.Error "Cannot cancel an approved leave request.")) ∧
      s.leaveRequestStorage.get requestId = some lr) := by
  have hid : lr.id = requestId := hkeys (requestId, lr) (Store.get_mem hreq)
  constructor
  · intro hst
    have hcancel : cancelLeaveRequest s requestId =
        ({ s with leaveRequestStorage := s.leaveRequestStorage.remove requestId },
          .ok (.Success "Leave request canceled successfully.")) := by
      simp [cancelLeaveRequest, hreq, hst]
    rw [hcancel]
    have hnotmem : lr ∉ (s.leaveRequestStorage.remove requestId).values := by
      intro hmem
      obtain ⟨k, hk⟩ := (Store.mem_values_iff _ _).mp hmem
      obtain ⟨hin, hne⟩ := Store.mem_remove hk
      have hk2 : lr.id = k := hkeys (k, lr) hin
      exact hne (hk2 ▸ hid)
    refine ⟨rfl, Store.get_remove_self .., hnotmem, ?_⟩
    intro l hl hmeml
    exact hnotmem (getEmployeeLeaveRequests_sub _ _ _ hl _ hmeml)
  · intro hst
    refine ⟨?_, hreq⟩
    simp [cancelLeaveRequest, hreq, hst]

/-- C7 witness: canceling the Pending request of the base state deletes it. -/
theorem claimC7_witness :
    (cancelLeaveRequest baseState "R1").2 =
      .ok (.Success "Leave request canceled successfully.") ∧
    (cancelLeaveRequest baseState "R1").1.leaveRequestStorage.get "R1" = none := by
  have h := claimC7_cancel_hard_delete baseState "R1" basePendingRequest
    (by unfold WellKeyedRequests; decide) (by decide)
  have h1 := h.1 (by decide)
  exact ⟨h1.1, h1.2.1⟩

/-- C10: cancelLeaveRequest never touches the employee store or the leave-type
store, keeps every leave request stored under a different id intact, and on
success leaves no record under the given id. -/
theorem claimC10_cancel_frame (s : State) (requestId : String) :
    (cancelLeaveRequest s requestId).1.employeeStorage = s.employeeStorage ∧
    (cancelLeaveRequest s requestId).1.leaveTypeStorage = s.leaveTypeStorage ∧
    (∀ k, k ≠ requestId →
      (cancelLeaveRequest s requestId).1.leaveRequestStorage.get k =
        s.leaveRequestStorage.get k) ∧
    (∀ x, (cancelLeaveRequest s requestId).2 = .ok x →
      (cancelLeaveRequest s requestId).1.leaveRequestStorage.get requestId = none) := by
  unfold cancelLeaveRequest
  split
  · exact ⟨rfl, rfl, fun k hk => rfl, fun x hx => by simp at hx⟩
  · split
    · exact ⟨rfl, rfl, fun k hk => rfl, fun x hx => by simp at hx⟩
    · exact ⟨rfl, rfl, fun k hk => Store.get_remove_ne _ _ _ hk,
        fun x hx => Store.get_remove_self _ _⟩

/-- C10 witness: canceling R1 in the base state leaves the employee store and
a record under another id untouched. -/
theorem claimC10_witness :
    (cancelLeaveRequest baseState "R1").1.employeeStorage = baseState.employeeStorage ∧
    (cancelLeaveRequest baseState "R1").1.leaveRequestStorage.get "R2" =
      baseState.leaveRequestStorage.get "R2" := by
  have h := claimC10_cancel_frame baseState "R1"
  exact ⟨h.1, h.2.2.1 "R2" (by decide)⟩

/-- C3: whenever any exposed operation returns a failure value, the resulting
state equals the starting state; in particular createLeaveRequest with a
balance below the quota fails with Error and changes nothing. -/
theorem claimC3_failure_leaves_state (s : State) :
    (∀ (op : Op) (m : Message), (applyOp s op).2 = .error m → (applyOp s op).1 = s) ∧
    (∀ (p : LeaveRequestPayload) (newId : String) (now : Nat) (emp : Employee) (lt : LeaveType),
      s.employeeStorage.get p.employee_id = some emp →
      s.leaveTypeStorage.get p.leave_type_id = some lt →
      emp.leave_balances.get lt.name < lt.quota →
      createLeaveRequest s p newId now =
        (s, .error (.Error "Insufficient leave balance for this leave type."))) := by
  constructor
  · intro op m h
    cases op with
    | createEmployee p newId now =>
      simp only [applyOp] at h ⊢
      exact frame_of_error (createEmployee_frame s p newId now) (exceptUnit_error h)
    | getEmployees => rfl
    | createLeaveRequest p newId now =>
      simp only [applyOp] at h ⊢
      exact frame_of_error (createLeaveRequest_frame s p newId now) (exceptUnit_error h)
    | deleteEmployee employeeId =>
      simp only [applyOp] at h ⊢
      exact frame_of_error (deleteEmployee_frame s employeeId) (exceptUnit_error h)
    | getEmployeeLeaveRequests employeeId => rfl
    | getLeaveRequests => rfl
    | approveLeaveRequest requestId =>
      simp only [applyOp] at h ⊢
      exact frame_of_error (approveLeaveRequest_frame s requestId) (exceptUnit_error h)
    | createLeaveType p newId now =>
      simp only [applyOp] at h ⊢
      exact frame_of_error (createLeaveType_frame s p newId now) (exceptUnit_error h)
    | getLeaveTypes => rfl
    | accrueLeave requestId =>
      simp only [applyOp] at h ⊢
      exact frame_of_error (accrueLeave_frame s requestId) (exceptUnit_error h)
    | generateLeaveReport employeeId => rfl
    | cancelLeaveRequest requestId =>
      simp only [applyOp] at h ⊢
      exact frame_of_error (cancelLeaveRequest_frame s requestId) (exceptUnit_error h)
  · intro p newId now emp lt hemp hlt hbal
    have hv : validateEmployee s p.employee_id = .ok emp := by
      simp [validateEmployee, hemp]
    have hb : validateLeaveBalance s emp p.leave_type_id =
        .error "Insufficient leave balance for this leave type." := by
      simp [validateLeaveBalance, hlt, not_le.mpr hbal]
    simp [createLeaveRequest, hv, hb]

def poorEmployee : Employee :=
  { id := "E1", name := "Alice", email := "a@b.c", phone_number := "+254712",
    leave_balances := { Annual := 3, Sick := 20, Maternity := 20, Paternity := 20, Unpaid := 20 },
    created_at := 0 }

/-- Employee whose Annual balance 3 is below the quota 5 of the stored type. -/
def poorState : State :=
  { employeeStorage := [("E1", poorEmployee)],
    leaveRequestStorage := [],
    leaveTypeStorage := [("T1", specExampleType)] }

def poorPayload : LeaveRequestPayload :=
  { employee_id := "E1", leave_type_id := "T1", start_date := 1, end_date := 2, reason := "x" }

/-- C3 witness: a failing deleteEmployee leaves the state unchanged, and an
insufficient balance makes createLeaveRequest fail with Error and no write. -/
theorem claimC3_witness :
    (applyOp poorState (Op.deleteEmployee "E9")).1 = poorState ∧
    createLeaveRequest poorState poorPayload "R2" 7 =
      (poorState, .error (.Error "Insufficient leave balance for this leave type.")) := by
  have h := claimC3_failure_leaves_state poorState
  exact ⟨h.1 (Op.deleteEmployee "E9") (.NotFound "Employee not found") rfl,
    h.2 poorPayload "R2" 7 poorEmployee specExampleType (by decide) (by decide) (by decide)⟩

/-- C4: for a stored employee, a createLeaveRequest whose start date or end
date falls inside the boundary-inclusive window of a stored non-Rejected
request of the same employee fails with Error and stores nothing. -/
theorem claimC4_overlap_blocks_second (s : State) (p : LeaveRequestPayload)
    (newId : String) (now : Nat) (emp : Employee) (lr : LeaveRequest)
    (hemp : s.employeeStorage.get p.employee_id = some emp)
    (hmem : lr ∈ s.leaveRequestStorage.values)
    (hid : lr.employee_id = p.employee_id)
    (hstat : lr.status ≠ "Rejected")
    (hov : (lr.start_date ≤ p.start_date ∧ p.start_date ≤ lr.end_date) ∨
           (lr.start_date ≤ p.end_date ∧ p.end_date ≤ lr.end_date)) :
    (createLeaveRequest s p newId now).1 = s ∧
    ∃ msg, (createLeaveRequest s p newId now).2 = .error (.Error msg) := by
  have hv : validateEmployee s p.employee_id = .ok emp := by simp [validateEmployee, hemp]
  have hover : checkLeaveOverlap s p.employee_id p.start_date p.end_date = true := by
    unfold checkLeaveOverlap
    rw [decide_eq_true_eq]
    refine List.length_pos.mpr (List.ne_nil_of_mem (List.mem_filter.mpr ⟨hmem, ?_⟩))
    simp only [Bool.and_eq_true, Bool.or_eq_true, decide_eq_true_eq]
    refine ⟨⟨hid, hstat⟩, ?_⟩
    rcases hov with ⟨h1, h2⟩ | ⟨h1, h2⟩
    · exact Or.inl ⟨h1, h2⟩
    · exact Or.inr ⟨h1, h2⟩
  cases hb : validateLeaveBalance s emp p.leave_type_id with
  | error e =>
    exact ⟨by simp [createLeaveRequest, hv, hb], e, by simp [createLeaveRequest, hv, hb]⟩
  | ok lt =>
    exact ⟨by simp [createLeaveRequest, hv, hb, hover],
      "Leave dates overlap with an existing request.",
      by simp [createLeaveRequest, hv, hb, hover]⟩

def overlapPayload : LeaveRequestPayload :=
  { employee_id := "E1", leave_type_id := "T1", start_date := 2, end_date := 5, reason := "x" }

/-- C4 witness: a second request starting inside the stored Pending window of
the base state fails with Error and stores nothing. -/
theorem claimC4_witness :
    (createLeaveRequest baseState overlapPayload "R2" 7).1 = baseState ∧
    ∃ msg, (createLeaveRequest baseState overlapPayload "R2" 7).2 = .error (.Error msg) :=
  claimC4_overlap_blocks_second baseState overlapPayload "R2" 7 baseEmployee basePendingRequest
    (by decide) (by decide) rfl (by decide) (Or.inl ⟨by decide, by decide⟩)

/-- C5: with the employee, leave type and balance checks passing and the start
date after the end date, createLeaveRequest returns the overlap Error when the
swapped dates overlap a stored non-Rejected request of the employee, and
returns InvalidPayload only otherwise; either way nothing is stored. -/
theorem claimC5_date_check_after_overlap (s : State) (p : LeaveRequestPayload)
    (newId : String) (now : Nat) (emp : Employee) (lt : LeaveType)
    (hemp : s.employeeStorage.get p.employee_id = some emp)
    (hlt : s.leaveTypeStorage.get p.leave_type_id = some lt)
    (hbal : emp.leave_balances.get lt.name ≥ lt.quota)
    (hdates : p.start_date > p.end_date) :
    (createLeaveRequest s p newId now).1 = s ∧
    (checkLeaveOverlap s p.employee_id p.start_date p.end_date = true →
      (createLeaveRequest s p newId now).2 =
        .error (.Error "Leave dates overlap with an existing request.")) ∧
    (checkLeaveOverlap s p.employee_id p.start_date p.end_date = false →
      (createLeaveRequest s p newId now).2 =
        .error (.InvalidPayload "Start date cannot be later than end date.")) := by
  have hv : validateEmployee s p.employee_id = .ok emp := by simp [validateEmployee, hemp]
  have hb : validateLeaveBalance s emp p.leave_type_id = .ok lt := by
    simp [validateLeaveBalance, hlt, hbal]
  refine ⟨?_, ?_, ?_⟩
  · cases hc : checkLeaveOverlap s p.employee_id p.start_date p.end_date
    · simp [createLeaveRequest, hv, hb, hc, hdates]
    · simp [createLeaveRequest, hv, hb, hc]
  · intro hc
    simp [createLeaveRequest, hv, hb, hc]
  · intro hc
    simp [createLeaveRequest, hv, hb, hc, hdates]

def swappedPayload : LeaveRequestPayload :=
  { employee_id := "E1", leave_type_id := "T1", start_date := 9, end_date := 4, reason := "x" }

/-- C5 witness: in the base state, swapped dates away from the stored window
reach the date-order check and fail with InvalidPayload. -/
theorem claimC5_witness :
    (createLeaveRequest baseState swappedPayload "R2" 7).2 =
      .error (.InvalidPayload "Start date cannot be later than end date.") := by
  have h := claimC5_date_check_after_overlap baseState swappedPayload "R2" 7 baseEmployee
    specExampleType (by decide) (by decide) (by decide) (by decide)
  exact h.2.2 (by decide)

/-- C9: createEmployee fails with InvalidPayload and stores nothing when the
email duplicates a stored employee, or the email fails the email regex, or the
phone number fails the phone regex, regardless of the other fields. -/
theorem claimC9_create_employee_validation (s : State) (p : EmployeePayload)
    (newId : String) (now : Nat)
    (hbad : emailMatch p.email = false ∨
      (∃ emp ∈ s.employeeStorage.values, emp.email = p.email) ∨
      phoneMatch p.phone_number = false) :
    (createEmployee s p newId now).1 = s ∧
    ∃ msg, (createEmployee s p newId now).2 = .error (.InvalidPayload msg) := by
  unfold createEmployee
  split
  · exact ⟨rfl, _, rfl⟩
  · split
    · exact ⟨rfl, _, rfl⟩
    · rename_i hemail
      split
      · exact ⟨rfl, _, rfl⟩
      · rename_i hfind
        split
        · exact ⟨rfl, _, rfl⟩
        · rename_i hphone
          exfalso
          rcases hbad with h1 | ⟨emp, hmem, heq⟩ | h3
          · exact hemail h1
          · have hno := List.find?_eq_none.mp hfind emp hmem
            simp [heq] at hno
          · exact hphone h3

def dupPayload : EmployeePayload :=
  { name := "Bob", email := "a@b.c", phone_number := "+1234" }

/-- C9 witness: registering a second employee with the already stored email of
the base state fails with InvalidPayload and stores nothing. -/
theorem claimC9_witness :
    (createEmployee baseState dupPayload "E2" 9).1 = baseState ∧
    ∃ msg, (createEmployee baseState dupPayload "E2" 9).2 = .error (.InvalidPayload msg) :=
  claimC9_create_employee_validation baseState dupPayload "E2" 9
    (Or.inr (Or.inl ⟨baseEmployee, by decide, rfl⟩))

theorem getEmployeeLeaveRequests_notfound (s : State) (eid : String)
    (h : ∀ r ∈ s.leaveRequestStorage.values, r.employee_id ≠ eid) :
    getEmployeeLeaveRequests s eid =
      .error (.NotFound ("No leave requests found for employee with id " ++ eid)) := by
  have hflt : s.leaveRequestStorage.values.filter
      (fun req => decide (req.employee_id = eid)) = [] := by
    rw [List.filter_eq_nil_iff]
    intro r hr
    simp only [decide_eq_true_eq]
    exact h r hr
  simp [getEmployeeLeaveRequests, hflt]

/-- C6: deleteEmployee on a stored employee fails with Error and changes
nothing when a Pending request references the employee; with no such Pending
request it succeeds, removes the employee record and every request referencing
the id, whatever its status, after which getEmployeeLeaveRequests for that id
returns NotFound. -/
theorem claimC6_delete_employee (s : State) (employeeId : String) (emp : Employee)
    (hkeys : WellKeyedRequests s)
    (hemp : s.employeeStorage.get employeeId = some emp) :
    ((∃ r ∈ s.leaveRequestStorage.values, r.employee_id = employeeId ∧ r.status = "Pending") →
      deleteEmployee s employeeId =
        (s, .error (.Error "Cannot delete employee with pending leave requests."))) ∧
    ((∀ r ∈ s.leaveRequestStorage.values, r.employee_id = employeeId → r.status ≠ "Pending") →
      (deleteEmployee s employeeId).2 =
        .ok (.Success "Employee and associated leave requests deleted.") ∧
      (deleteEmployee s employeeId).1.employeeStorage.get employeeId = none ∧
      (∀ r ∈ (deleteEmployee s employeeId).1.leaveRequestStorage.values,
        r.employee_id ≠ employeeId) ∧
      getEmployeeLeaveRequests (deleteEmployee s employeeId).1 employeeId =
        .error (.NotFound ("No leave requests found for employee with id " ++ employeeId))) := by
  constructor
  · rintro ⟨r, hr, hrid, hrst⟩
    have hany : s.leaveRequestStorage.values.any
        (fun req => decide (req.employee_id = employeeId) &&
          decide (req.status = "Pending")) = true := by
      rw [List.any_eq_true]
      exact ⟨r, hr, by simp [hrid, hrst]⟩
    simp [deleteEmployee, hemp, hany]
  · intro hno
    have hany : s.leaveRequestStorage.values.any
        (fun req => decide (req.employee_id = employeeId) &&
          decide (req.status = "Pending")) = false := by
      rw [Bool.eq_false_iff]
      intro hcontra
      rw [List.any_eq_true] at hcontra
      obtain ⟨r, hr, hp⟩ := hcontra
      simp only [Bool.and_eq_true, decide_eq_true_eq] at hp
      exact hno r hr hp.1 hp.2
    have hdel : deleteEmployee s employeeId =
        ({ s with
            employeeStorage := s.employeeStorage.remove employeeId,
            leaveRequestStorage := s.leaveRequestStorage.values.foldl
              (fun acc req => if req.employee_id = employeeId then acc.remove req.id else acc)
              s.leaveRequestStorage },
          .ok (.Success "Employee and associated leave requests deleted.")) := by
      simp [deleteEmployee, hemp, hany]
    have hnoref : ∀ r ∈ (deleteEmployee s employeeId).1.leaveRequestStorage.values,
        r.employee_id ≠ employeeId := by
      intro r hr heq
      rw [hdel] at hr
      obtain ⟨k, hk⟩ := (Store.mem_values_iff _ _).mp hr
      obtain ⟨hin, hforall⟩ := mem_foldl_removeIf _ _ hk
      exact hforall r ((Store.mem_values_iff _ _).mpr ⟨k, hin⟩) heq (hkeys (k, r) hin)
    refine ⟨by rw [hdel], ?_, hnoref, getEmployeeLeaveRequests_notfound _ _ hnoref⟩
    rw [hdel]
    exact Store.get_remove_self ..

/-- C6 witness: deleting the employee of the base state fails because of the
Pending request; deleting the employee of the spec-example state, whose only
request is Approved, succeeds and empties the request listing. -/
theorem claimC6_witness :
    deleteEmployee baseState "E1" =
      (baseState, .error (.Error "Cannot delete employee with pending leave requests.")) ∧
    (deleteEmployee specExampleState "E1").2 =
      .ok (.Success "Employee and associated leave requests deleted.") ∧
    getEmployeeLeaveRequests (deleteEmployee specExampleState "E1").1 "E1" =
      .error (.NotFound ("No leave requests found for employee with id " ++ "E1")) := by
  have h1 := claimC6_delete_employee baseState "E1" baseEmployee
    (by unfold WellKeyedRequests; decide) (by decide)
  have h2 := claimC6_delete_employee specExampleState "E1" specExampleEmployee
    (by unfold WellKeyedRequests; decide) (by decide)
  have h2s := h2.2 (by decide)
  exact ⟨h1.1 ⟨basePendingRequest, by decide, rfl, rfl⟩, h2s.1, h2s.2.2.2⟩

/-- C8: in every state reachable from the empty stores no stored leave request
has status Rejected; every stored status is Pending, Approved or Accrued. -/
theorem claimC8_no_rejected_status (s : State) (hs : Reachable s) (r : LeaveRequest)
    (hr : r ∈ s.leaveRequestStorage.values) :
    r.status ≠ "Rejected" ∧
    (r.status = "Pending" ∨ r.status = "Approved" ∨ r.status = "Accrued") := by
  have h := reachable_statusInv s hs r hr
  refine ⟨?_, h⟩
  rcases h with h | h | h <;> rw [h] <;> decide

def demoPayloadE : EmployeePayload :=
  { name := "Alice", email := "a@b.c", phone_number := "+254712" }

def demoPayloadT : LeaveTypePayload :=
  { name := .Annual, quota := 5, carryover_allowed := true }

def demoPayloadR : LeaveRequestPayload :=
  { employee_id := "E1", leave_type_id := "T1", start_date := 1, end_date := 3, reason := "rest" }

/-- State reached from empty stores by registering an employee, a leave type
and a leave request. -/
def demoState : State :=
  (applyOp (applyOp (applyOp State.empty (.createEmployee demoPayloadE "E1" 0)).1
    (.createLeaveType demoPayloadT "T1" 0)).1
    (.createLeaveRequest demoPayloadR "R1" 0)).1

theorem demoState_reachable : Reachable demoState :=
  Reachable.step (Reachable.step (Reachable.step Reachable.base
    (.createEmployee demoPayloadE "E1" 0)) (.createLeaveType demoPayloadT "T1" 0))
    (.createLeaveRequest demoPayloadR "R1" 0)

/-- C8 witness: the request stored in the concrete reachable demo state has a
non-Rejected status. -/
theorem claimC8_witness :
    basePendingRequest.status ≠ "Rejected" ∧
    (basePendingRequest.status = "Pending" ∨ basePendingRequest.status = "Approved" ∨
      basePendingRequest.status = "Accrued") :=
  claimC8_no_rejected_status demoState demoState_reachable basePendingRequest (by decide)
